import Mathlib

/-!
Shallow embedding of the `dicom-test-files` crate
(`src/lib.rs`, `src/test_file.rs`).

External effects (environment variables, the HTTP client, the `sha2`
hasher, the `zstd` decoder, the location of the running executable and
the uniqueness source of `tempfile::tempdir_in`) are parameters of an
`Env` record; the local filesystem is an explicit state `FState`; every
operation additionally returns the list of observable filesystem/network
events it performed, so that claims about orderings ("lookup happens
before any network activity", "published only by a rename") can be
stated over the trace.

Filesystem paths are modelled as lists of components (`FPath`), the way
`std::path::PathBuf::join` treats a slash-separated name; URLs stay
plain strings, the way the source concatenates them.
-/

namespace DicomTestFiles

/-- A sequence of raw bytes (each entry is meant to be `< 256`, a `u8`). -/
abbrev Bytes := List Nat

/-- A filesystem path, as its list of components
(`PathBuf::join` on a slash-separated name produces exactly these components). -/
abbrev FPath := List String

/-- From `src/test_file.rs`: `enum Compression { None, Zstd }`. -/
inductive Compression where
  | None
  | Zstd
deriving DecidableEq

/-- From `src/test_file.rs`: `struct TestFile { name, compression, hash }`. -/
structure TestFile where
  name : String
  compression : Compression
  hash : String
deriving DecidableEq

/-- From `src/test_file.rs`, `TestFile::real_file_name`:
the remote file name is the entry's name, with `.zst` appended for Zstd entries. -/
def TestFile.real_file_name (f : TestFile) : String :=
  match f.compression with
  | Compression.None => f.name
  | Compression.Zstd => f.name ++ ".zst"

/-- Models `std::env::VarError` (`NotUnicode` carries no payload here;
the environment model only produces unicode values, so only `NotPresent` arises). -/
inductive VarError where
  | NotPresent
  | NotUnicode
deriving DecidableEq

/-- From `src/lib.rs`: `enum Error`. -/
inductive Error where
  | NotFound
  | InvalidHash
  | Download (detail : String)
  | Io (msg : String)
  | ResolveUrl (e : VarError)
  | ZstdRequired
deriving DecidableEq

/-- Observable events of a call: network requests and filesystem effects,
in the order the source performs them. -/
inductive Event where
  | netGet (url : String)
  | createDirAll (dir : FPath)
  | tempdirIn (parent : FPath) (dir : FPath)
  | createFile (p : FPath)
  | writeAll (p : FPath) (data : Bytes)
  | zstdDecodeEv (src : FPath) (dst : FPath)
  | rename (src : FPath) (dst : FPath)
  | removeFile (p : FPath)
deriving DecidableEq

/-- The mutable local filesystem: contents of each path (`none` = absent),
plus the counter that stands in for `tempfile::tempdir_in`'s fresh-name source. -/
structure FState where
  files : FPath → Option Bytes
  tmpCounter : Nat

/-- Read a file's contents. -/
def FState.get (fs : FState) (p : FPath) : Option Bytes := fs.files p

/-- `Path::exists`. -/
def FState.existsF (fs : FState) (p : FPath) : Bool := (fs.files p).isSome

/-- Create/overwrite a file with the given contents. -/
def FState.set (fs : FState) (p : FPath) (b : Bytes) : FState :=
  { fs with files := fun q => if q = p then some b else fs.files q }

/-- `fs::remove_file`. -/
def FState.removeF (fs : FState) (p : FPath) : FState :=
  { fs with files := fun q => if q = p then none else fs.files q }

/-- The read-only environment: everything outside the crate's own code.
`sha256` models the `sha2` crate's SHA-256 digest (32 bytes, each `< 256`);
`net` models `ureq::get(url).call()` plus reading the body (the error case
carries the transport error's display text); `zstdDecode` models the `zstd`
decoder; `targetDir` is the ancestor directory literally named `target`
that `get_data_path` walks up to from `current_exe`. -/
structure Env where
  entries : List TestFile
  vars : String → Option String
  net : String → Except String Bytes
  zstdOn : Bool
  targetDir : FPath
  zstdDecode : Bytes → Option Bytes
  sha256 : Bytes → List Nat

/-- From `src/lib.rs`: `lookup` scans `FILE_ENTRIES` for the first entry
with the given name (`FILE_ENTRIES` is the generated registry, supplied
here through `Env.entries`). -/
def lookup (entries : List TestFile) (name : String) : Option TestFile :=
  entries.find? (fun entry => entry.name == name)

/-- From `src/lib.rs`, `get_data_path`: the ancestor `target` directory
joined with `dicom_test_files`. -/
def get_data_path (env : Env) : FPath :=
  env.targetDir ++ ["dicom_test_files"]

/-- Split a slash-separated name into its path components, the way
`PathBuf::join` treats it (models `str` split on `'/'`). -/
def pathComponents (s : String) : List String :=
  go s.data []
where
  go : List Char → List Char → List String
    | [], acc => [String.mk acc.reverse]
    | c :: rest, acc =>
      if c = '/' then String.mk acc.reverse :: go rest []
      else go rest (c :: acc)

/-- Models Rust `str::ends_with` on strings. -/
def str_ends_with (s suffix : String) : Bool :=
  suffix.data.isSuffixOf s.data

/-- From `src/lib.rs`: the default data source. -/
def DEFAULT_GITHUB_BASE_URL : String :=
  "https://raw.githubusercontent.com/robyoung/dicom-test-files/master/data/"

/-- From `src/lib.rs`. -/
def RAW_GITHUBUSERCONTENT_URL : String := "https://raw.githubusercontent.com"

/-- From `src/lib.rs`, `base_url`: honour a non-empty `DICOM_TEST_FILES_URL`
(normalised to end with `/`); otherwise, on CI for a `…/dicom-test-files`
repository, read `GITHUB_EVENT_NAME` (with `?`, so a missing variable is a
`VarError`) and, for a `pull_request`, build the head branch's raw URL from
`GITHUB_HEAD_REF` (again with `?`); in the remaining cases return the default.
This is the part of `base_url` after the `DICOM_TEST_FILES_URL` check
(the CI pull-request derivation with the default fallback). -/
def base_url_ci_default (env : Env) : Except VarError String :=
  let ci := (env.vars "CI").getD ""
  if ci = "true" then
    let github_repository := (env.vars "GITHUB_REPOSITORY").getD ""
    if str_ends_with github_repository "/dicom-test-files" then
      match env.vars "GITHUB_EVENT_NAME" with
      | none => Except.error VarError.NotPresent
      | some github_event_name =>
        if github_event_name = "pull_request" then
          match env.vars "GITHUB_HEAD_REF" with
          | none => Except.error VarError.NotPresent
          | some github_head_ref =>
            Except.ok (RAW_GITHUBUSERCONTENT_URL ++ "/" ++ github_repository
              ++ "/" ++ github_head_ref ++ "/data/")
        else Except.ok DEFAULT_GITHUB_BASE_URL
    else Except.ok DEFAULT_GITHUB_BASE_URL
  else Except.ok DEFAULT_GITHUB_BASE_URL

/-- From `src/lib.rs`, `base_url`: a set, non-empty `DICOM_TEST_FILES_URL`
wins (normalised to end with `/`); an unset or empty variable falls through
to `base_url_ci_default`. -/
def base_url (env : Env) : Except VarError String :=
  match env.vars "DICOM_TEST_FILES_URL" with
  | some url =>
    if url ≠ "" then
      Except.ok (if !(str_ends_with url "/") then url ++ "/" else url)
    else base_url_ci_default env
  | none => base_url_ci_default env

instance {ε α : Type} [DecidableEq ε] [DecidableEq α] : DecidableEq (Except ε α) := fun a b =>
  match a, b with
  | Except.error e, Except.error e' =>
    if h : e = e' then isTrue (by rw [h]) else isFalse (by intro hc; cases hc; exact h rfl)
  | Except.ok x, Except.ok y =>
    if h : x = y then isTrue (by rw [h]) else isFalse (by intro hc; cases hc; exact h rfl)
  | Except.error _, Except.ok _ => isFalse (by intro hc; cases hc)
  | Except.ok _, Except.error _ => isFalse (by intro hc; cases hc)

/-- One lowercase hexadecimal digit (`0`–`9`, `a`–`f`), as Rust's `{:x}`
formatting renders a nibble. -/
def hexDigit (d : Nat) : Char :=
  if d < 10 then Char.ofNat (48 + d) else Char.ofNat (87 + d)

/-- `format!("{:x}", hash)` on a SHA-256 digest: each `u8` of the digest is
rendered as two lowercase hexadecimal digits (`{:02x}`); for bytes `< 256`
the nibbles are `b / 16` and `b % 16` (written mod 16, which agrees on `u8`s). -/
def toLowerHex (ds : List Nat) : String :=
  String.mk (ds.foldr (fun b acc => hexDigit (b / 16 % 16) :: hexDigit (b % 16) :: acc) [])

/-- From `src/lib.rs`, `check_hash`: open the file (its entire contents are
streamed through the hasher), render the digest in lowercase hex and compare
to the registry hash; on mismatch delete the file and fail with `InvalidHash`. -/
def check_hash (env : Env) (fs : FState) (p : FPath) (file_entry : TestFile) :
    Except Error Unit × FState × List Event :=
  match fs.get p with
  | none => (Except.error (Error.Io "open"), fs, [])
  | some contents =>
    if toLowerHex (env.sha256 contents) ≠ file_entry.hash then
      (Except.error Error.InvalidHash, fs.removeF p, [Event.removeFile p])
    else
      (Except.ok (), fs, [])

/-- From `src/lib.rs`, `write_zstd`.
With the `zstd` feature (modelled by `Env.zstdOn = true`): open the source,
decode it (`zstd::Decoder`), create the destination file and stream the
decoded bytes into it. Without the feature: fail with `ZstdRequired`
immediately, touching nothing. -/
def write_zstd (env : Env) (fs : FState) (source_path cached_path : FPath) :
    Except Error Unit × FState × List Event :=
  if env.zstdOn then
    match fs.get source_path with
    | none => (Except.error (Error.Io "open"), fs, [])
    | some src =>
      match env.zstdDecode src with
      | none => (Except.error (Error.Io "zstd decode"), fs, [Event.zstdDecodeEv source_path cached_path])
      | some decoded =>
        ((Except.ok (),
          (fs.set cached_path []).set cached_path decoded,
          [Event.zstdDecodeEv source_path cached_path,
           Event.createFile cached_path,
           Event.writeAll cached_path decoded]))
  else
    (Except.error Error.ZstdRequired, fs, [])

/-- From `src/lib.rs`, `download`: look the name up again, create the
destination's parent directory, resolve the base URL, fetch
`base ++ real_file_name`, stream the body into `tmpfile` inside a fresh
temporary directory created next to the destination, verify the hash, then
either rename the temp file into place (`Compression::None`) or decompress
it into the destination and remove the temp file (`Compression::Zstd`). -/
def download (env : Env) (fs : FState) (name : String) (cached_path : FPath) :
    Except Error Unit × FState × List Event :=
  match lookup env.entries name with
  | none => (Except.error Error.NotFound, fs, [])
  | some file_entry =>
    let target_parent_dir := cached_path.dropLast
    match base_url env with
    | Except.error e =>
        (Except.error (Error.ResolveUrl e), fs, [Event.createDirAll target_parent_dir])
    | Except.ok base =>
      let url := base ++ file_entry.real_file_name
      match env.net url with
      | Except.error e =>
          (Except.error (Error.Download ("Failed to download " ++ url ++ ": " ++ e)), fs,
           [Event.createDirAll target_parent_dir, Event.netGet url])
      | Except.ok body =>
        let tmpdir := target_parent_dir ++ ["tmp" ++ toString fs.tmpCounter]
        let tempfile_path := tmpdir ++ ["tmpfile"]
        let fs1 : FState := { fs with tmpCounter := fs.tmpCounter + 1 }
        let fs3 := (fs1.set tempfile_path []).set tempfile_path body
        let ev1 := [Event.createDirAll target_parent_dir, Event.netGet url,
                    Event.tempdirIn target_parent_dir tmpdir,
                    Event.createFile tempfile_path, Event.writeAll tempfile_path body]
        match check_hash env fs3 tempfile_path file_entry with
        | (Except.error e, fs4, ev2) => (Except.error e, fs4, ev1 ++ ev2)
        | (Except.ok _, fs4, ev2) =>
          match file_entry.compression with
          | Compression.None =>
              ((Except.ok (),
                (fs4.removeF tempfile_path).set cached_path body,
                ev1 ++ ev2 ++ [Event.rename tempfile_path cached_path]))
          | Compression.Zstd =>
            match write_zstd env fs4 tempfile_path cached_path with
            | (Except.error e, fs5, ev3) => (Except.error e, fs5, ev1 ++ ev2 ++ ev3)
            | (Except.ok _, fs5, ev3) =>
                ((Except.ok (),
                  fs5.removeF tempfile_path,
                  ev1 ++ ev2 ++ ev3 ++ [Event.removeFile tempfile_path]))

/-- The cache path `get_data_path().join(entry.name)`. -/
def cachedPathOf (env : Env) (entry : TestFile) : FPath :=
  get_data_path env ++ pathComponents entry.name

/-- From `src/lib.rs`, `path`: registry lookup (fail `NotFound` if absent),
resolve the cache path, return it at once if the file exists, otherwise
`download` and return it. -/
def path (env : Env) (fs : FState) (name : String) :
    Except Error FPath × FState × List Event :=
  match lookup env.entries name with
  | none => (Except.error Error.NotFound, fs, [])
  | some entry =>
    let cached_path := get_data_path env ++ pathComponents entry.name
    if !(fs.existsF cached_path) then
      match download env fs name cached_path with
      | (Except.error e, fs1, tr) => (Except.error e, fs1, tr)
      | (Except.ok _, fs1, tr) => (Except.ok cached_path, fs1, tr)
    else
      (Except.ok cached_path, fs, [])

/-- The temporary directory created by the `n`-th `download` next to `cached`. -/
def tmpDirOf (cached : FPath) (n : Nat) : FPath :=
  cached.dropLast ++ ["tmp" ++ toString n]

/-- The temporary file `tmpfile` inside that directory. -/
def tmpFileOf (cached : FPath) (n : Nat) : FPath :=
  tmpDirOf cached n ++ ["tmpfile"]

/-- Does this event create or write file contents at path `p`?
(A rename into `p` is not a write at `p`: it atomically publishes a file
written elsewhere.) -/
def Event.writesTo (e : Event) (p : FPath) : Bool :=
  match e with
  | Event.createFile q => decide (q = p)
  | Event.writeAll q _ => decide (q = p)
  | _ => false

lemma cachedPathOf_ne_nil (env : Env) (entry : TestFile) :
    cachedPathOf env entry ≠ [] := by
  unfold cachedPathOf get_data_path
  intro h
  have := congrArg List.length h
  simp [List.length_append] at this

lemma tmpFileOf_ne {cached : FPath} (h : cached ≠ []) (n : Nat) :
    tmpFileOf cached n ≠ cached := by
  intro hc
  have hlen := congrArg List.length hc
  have h1 : 1 ≤ cached.length := List.length_pos.mpr h
  simp [tmpFileOf, tmpDirOf, List.length_append, List.length_dropLast] at hlen
  omega

/-! ### Run characterization lemmas

One lemma per reachable outcome of `path`/`download`, each giving the exact
result, final filesystem and event trace of the run. -/

lemma path_hit (env : Env) (fs : FState) (name : String) (entry : TestFile)
    (hl : lookup env.entries name = some entry)
    (hhit : fs.existsF (cachedPathOf env entry) = true) :
    path env fs name = (Except.ok (cachedPathOf env entry), fs, []) := by
  have hhit' : fs.existsF (get_data_path env ++ pathComponents entry.name) = true := hhit
  unfold path
  rw [hl]
  simp [hhit', cachedPathOf]

lemma path_notFound (env : Env) (fs : FState) (name : String)
    (hl : lookup env.entries name = none) :
    path env fs name = (Except.error Error.NotFound, fs, []) := by
  unfold path
  rw [hl]

lemma download_hash_mismatch (env : Env) (fs : FState) (name : String)
    (entry : TestFile) (base : String) (body : Bytes) (cached : FPath)
    (hl : lookup env.entries name = some entry)
    (hb : base_url env = Except.ok base)
    (hn : env.net (base ++ entry.real_file_name) = Except.ok body)
    (hh : ¬ toLowerHex (env.sha256 body) = entry.hash) :
    download env fs name cached =
      (Except.error Error.InvalidHash,
       ((({ fs with tmpCounter := fs.tmpCounter + 1 } : FState).set
            (tmpFileOf cached fs.tmpCounter) []).set
            (tmpFileOf cached fs.tmpCounter) body).removeF
            (tmpFileOf cached fs.tmpCounter),
       [Event.createDirAll cached.dropLast,
        Event.netGet (base ++ entry.real_file_name),
        Event.tempdirIn cached.dropLast (tmpDirOf cached fs.tmpCounter),
        Event.createFile (tmpFileOf cached fs.tmpCounter),
        Event.writeAll (tmpFileOf cached fs.tmpCounter) body,
        Event.removeFile (tmpFileOf cached fs.tmpCounter)]) := by
  unfold download check_hash
  rw [hl]
  simp [hb, hn, FState.get, FState.set, hh, tmpFileOf, tmpDirOf]

lemma download_none_ok (env : Env) (fs : FState) (name : String)
    (entry : TestFile) (base : String) (body : Bytes) (cached : FPath)
    (hl : lookup env.entries name = some entry)
    (hb : base_url env = Except.ok base)
    (hn : env.net (base ++ entry.real_file_name) = Except.ok body)
    (hh : toLowerHex (env.sha256 body) = entry.hash)
    (hc : entry.compression = Compression.None) :
    download env fs name cached =
      (Except.ok (),
       (((({ fs with tmpCounter := fs.tmpCounter + 1 } : FState).set
            (tmpFileOf cached fs.tmpCounter) []).set
            (tmpFileOf cached fs.tmpCounter) body).removeF
            (tmpFileOf cached fs.tmpCounter)).set cached body,
       [Event.createDirAll cached.dropLast,
        Event.netGet (base ++ entry.real_file_name),
        Event.tempdirIn cached.dropLast (tmpDirOf cached fs.tmpCounter),
        Event.createFile (tmpFileOf cached fs.tmpCounter),
        Event.writeAll (tmpFileOf cached fs.tmpCounter) body,
        Event.rename (tmpFileOf cached fs.tmpCounter) cached]) := by
  unfold download check_hash
  rw [hl]
  simp [hb, hn, FState.get, FState.set, hh, hc, tmpFileOf, tmpDirOf]

lemma download_zstd_ok (env : Env) (fs : FState) (name : String)
    (entry : TestFile) (base : String) (body decoded : Bytes) (cached : FPath)
    (hl : lookup env.entries name = some entry)
    (hb : base_url env = Except.ok base)
    (hn : env.net (base ++ entry.real_file_name) = Except.ok body)
    (hh : toLowerHex (env.sha256 body) = entry.hash)
    (hc : entry.compression = Compression.Zstd)
    (hz : env.zstdOn = true)
    (hd : env.zstdDecode body = some decoded) :
    download env fs name cached =
      (Except.ok (),
       ((((({ fs with tmpCounter := fs.tmpCounter + 1 } : FState).set
            (tmpFileOf cached fs.tmpCounter) []).set
            (tmpFileOf cached fs.tmpCounter) body).set cached []).set
            cached decoded).removeF (tmpFileOf cached fs.tmpCounter),
       [Event.createDirAll cached.dropLast,
        Event.netGet (base ++ entry.real_file_name),
        Event.tempdirIn cached.dropLast (tmpDirOf cached fs.tmpCounter),
        Event.createFile (tmpFileOf cached fs.tmpCounter),
        Event.writeAll (tmpFileOf cached fs.tmpCounter) body,
        Event.zstdDecodeEv (tmpFileOf cached fs.tmpCounter) cached,
        Event.createFile cached,
        Event.writeAll cached decoded,
        Event.removeFile (tmpFileOf cached fs.tmpCounter)]) := by
  unfold download check_hash write_zstd
  rw [hl]
  simp [hb, hn, FState.get, FState.set, hh, hc, hz, hd, tmpFileOf, tmpDirOf]

lemma download_zstd_required (env : Env) (fs : FState) (name : String)
    (entry : TestFile) (base : String) (body : Bytes) (cached : FPath)
    (hl : lookup env.entries name = some entry)
    (hb : base_url env = Except.ok base)
    (hn : env.net (base ++ entry.real_file_name) = Except.ok body)
    (hh : toLowerHex (env.sha256 body) = entry.hash)
    (hc : entry.compression = Compression.Zstd)
    (hz : env.zstdOn = false) :
    download env fs name cached =
      (Except.error Error.ZstdRequired,
       (({ fs with tmpCounter := fs.tmpCounter + 1 } : FState).set
            (tmpFileOf cached fs.tmpCounter) []).set
            (tmpFileOf cached fs.tmpCounter) body,
       [Event.createDirAll cached.dropLast,
        Event.netGet (base ++ entry.real_file_name),
        Event.tempdirIn cached.dropLast (tmpDirOf cached fs.tmpCounter),
        Event.createFile (tmpFileOf cached fs.tmpCounter),
        Event.writeAll (tmpFileOf cached fs.tmpCounter) body]) := by
  unfold download check_hash write_zstd
  rw [hl]
  simp [hb, hn, FState.get, FState.set, hh, hc, hz, tmpFileOf, tmpDirOf]

lemma download_zstd_decode_fail (env : Env) (fs : FState) (name : String)
    (entry : TestFile) (base : String) (body : Bytes) (cached : FPath)
    (hl : lookup env.entries name = some entry)
    (hb : base_url env = Except.ok base)
    (hn : env.net (base ++ entry.real_file_name) = Except.ok body)
    (hh : toLowerHex (env.sha256 body) = entry.hash)
    (hc : entry.compression = Compression.Zstd)
    (hz : env.zstdOn = true)
    (hd : env.zstdDecode body = none) :
    download env fs name cached =
      (Except.error (Error.Io "zstd decode"),
       (({ fs with tmpCounter := fs.tmpCounter + 1 } : FState).set
            (tmpFileOf cached fs.tmpCounter) []).set
            (tmpFileOf cached fs.tmpCounter) body,
       [Event.createDirAll cached.dropLast,
        Event.netGet (base ++ entry.real_file_name),
        Event.tempdirIn cached.dropLast (tmpDirOf cached fs.tmpCounter),
        Event.createFile (tmpFileOf cached fs.tmpCounter),
        Event.writeAll (tmpFileOf cached fs.tmpCounter) body,
        Event.zstdDecodeEv (tmpFileOf cached fs.tmpCounter) cached]) := by
  unfold download check_hash write_zstd
  rw [hl]
  simp [hb, hn, FState.get, FState.set, hh, hc, hz, hd, tmpFileOf, tmpDirOf]

lemma path_miss_eq (env : Env) (fs : FState) (name : String) (entry : TestFile)
    (hl : lookup env.entries name = some entry)
    (hmiss : fs.existsF (cachedPathOf env entry) = false) :
    path env fs name =
      (match download env fs name (cachedPathOf env entry) with
       | (Except.error e, fs1, tr) => (Except.error e, fs1, tr)
       | (Except.ok _, fs1, tr) => (Except.ok (cachedPathOf env entry), fs1, tr)) := by
  have hmiss' : fs.existsF (get_data_path env ++ pathComponents entry.name) = false := hmiss
  unfold path
  rw [hl]
  simp [hmiss', cachedPathOf]

lemma FState.get_set (fs : FState) (p q : FPath) (b : Bytes) :
    (fs.set p b).get q = if q = p then some b else fs.get q := rfl

lemma FState.get_removeF (fs : FState) (p q : FPath) :
    (fs.removeF p).get q = if q = p then none else fs.get q := rfl

lemma FState.get_eq_none_of_existsF_false (fs : FState) (p : FPath)
    (h : fs.existsF p = false) : fs.get p = none := by
  unfold FState.existsF at h
  unfold FState.get
  cases hc : fs.files p with
  | none => rfl
  | some b => rw [hc] at h; simp at h

lemma download_resolve_err (env : Env) (fs : FState) (name : String)
    (entry : TestFile) (e : VarError) (cached : FPath)
    (hl : lookup env.entries name = some entry)
    (hb : base_url env = Except.error e) :
    download env fs name cached =
      (Except.error (Error.ResolveUrl e), fs, [Event.createDirAll cached.dropLast]) := by
  unfold download
  rw [hl]
  simp [hb]

lemma download_net_err (env : Env) (fs : FState) (name : String)
    (entry : TestFile) (base e : String) (cached : FPath)
    (hl : lookup env.entries name = some entry)
    (hb : base_url env = Except.ok base)
    (hn : env.net (base ++ entry.real_file_name) = Except.error e) :
    download env fs name cached =
      (Except.error (Error.Download
         ("Failed to download " ++ (base ++ entry.real_file_name) ++ ": " ++ e)), fs,
       [Event.createDirAll cached.dropLast,
        Event.netGet (base ++ entry.real_file_name)]) := by
  unfold download
  rw [hl]
  simp [hb, hn]

lemma write_zstd_ok_inv (env : Env) (fs : FState) (src dst : FPath)
    (fs5 : FState) (ev : List Event)
    (h : write_zstd env fs src dst = (Except.ok (), fs5, ev)) :
    ∃ decoded, fs5 = (fs.set dst []).set dst decoded := by
  unfold write_zstd at h
  split at h
  · split at h
    · simp at h
    · split at h
      · simp at h
      · have h2 := congrArg (fun t => t.2.1) h
        simp only at h2
        exact ⟨_, h2.symm⟩
  · simp at h

lemma download_ok_installed (env : Env) (fs : FState) (name : String)
    (cached : FPath) (hne : cached ≠ []) (fs1 : FState) (tr : List Event)
    (h : download env fs name cached = (Except.ok (), fs1, tr)) :
    fs1.existsF cached = true := by
  cases hl : lookup env.entries name with
  | none =>
    unfold download at h; rw [hl] at h; simp at h
  | some entry =>
    cases hb : base_url env with
    | error e => rw [download_resolve_err env fs name entry e cached hl hb] at h; simp at h
    | ok base =>
      cases hn : env.net (base ++ entry.real_file_name) with
      | error e => rw [download_net_err env fs name entry base e cached hl hb hn] at h; simp at h
      | ok body =>
        by_cases hh : toLowerHex (env.sha256 body) = entry.hash
        · cases hc : entry.compression with
          | None =>
            rw [download_none_ok env fs name entry base body cached hl hb hn hh hc] at h
            have hfs : fs1 = ((((({ fs with tmpCounter := fs.tmpCounter + 1 } : FState).set
                (tmpFileOf cached fs.tmpCounter) []).set
                (tmpFileOf cached fs.tmpCounter) body).removeF
                (tmpFileOf cached fs.tmpCounter)).set cached body) := by
              have := congrArg (fun t => t.2.1) h
              simpa using this.symm
            rw [hfs]
            simp [FState.existsF, FState.set]
          | Zstd =>
            cases hz : env.zstdOn with
            | false =>
              rw [download_zstd_required env fs name entry base body cached hl hb hn hh hc hz] at h
              simp at h
            | true =>
              cases hd : env.zstdDecode body with
              | none =>
                rw [download_zstd_decode_fail env fs name entry base body cached hl hb hn hh hc hz hd] at h
                simp at h
              | some decoded =>
                rw [download_zstd_ok env fs name entry base body decoded cached hl hb hn hh hc hz hd] at h
                have hfs : fs1 = (((((({ fs with tmpCounter := fs.tmpCounter + 1 } : FState).set
                    (tmpFileOf cached fs.tmpCounter) []).set
                    (tmpFileOf cached fs.tmpCounter) body).set cached []).set
                    cached decoded).removeF (tmpFileOf cached fs.tmpCounter)) := by
                  have := congrArg (fun t => t.2.1) h
                  simpa using this.symm
                rw [hfs]
                simp [FState.existsF, FState.removeF, FState.set,
                      (tmpFileOf_ne hne fs.tmpCounter).symm]
        · rw [download_hash_mismatch env fs name entry base body cached hl hb hn hh] at h
          simp at h

lemma path_ok_inv (env : Env) (fs : FState) (name : String) (p : FPath)
    (fs1 : FState) (tr : List Event)
    (h : path env fs name = (Except.ok p, fs1, tr)) :
    ∃ entry, lookup env.entries name = some entry ∧ p = cachedPathOf env entry ∧
      fs1.existsF (cachedPathOf env entry) = true := by
  cases hl : lookup env.entries name with
  | none => rw [path_notFound env fs name hl] at h; simp at h
  | some entry =>
    refine ⟨entry, rfl, ?_⟩
    cases hex : fs.existsF (cachedPathOf env entry) with
    | true =>
      rw [path_hit env fs name entry hl hex] at h
      have h1 := congrArg (fun t => t.1) h
      have h2 := congrArg (fun t => t.2.1) h
      simp at h1 h2
      exact ⟨h1.symm, h2 ▸ hex⟩
    | false =>
      rw [path_miss_eq env fs name entry hl hex] at h
      rcases hdl : download env fs name (cachedPathOf env entry) with ⟨r, fs', tr'⟩
      rw [hdl] at h
      cases r with
      | error e => simp at h
      | ok u =>
        simp at h
        obtain ⟨h1, h2, _⟩ := h
        refine ⟨h1.symm, ?_⟩
        rw [← h2]
        exact download_ok_installed env fs name (cachedPathOf env entry)
          (cachedPathOf_ne_nil env entry) fs' tr' (by rw [hdl])

lemma path_trace_miss (env : Env) (fs : FState) (name : String) (entry : TestFile)
    (hl : lookup env.entries name = some entry)
    (hmiss : fs.existsF (cachedPathOf env entry) = false) :
    (path env fs name).2.1 = (download env fs name (cachedPathOf env entry)).2.1 ∧
    (path env fs name).2.2 = (download env fs name (cachedPathOf env entry)).2.2 := by
  rw [path_miss_eq env fs name entry hl hmiss]
  rcases hdl : download env fs name (cachedPathOf env entry) with ⟨r, fs', tr'⟩
  cases r <;> simp

lemma download_netGet (env : Env) (fs : FState) (name : String) (cached : FPath)
    (u : String) (hm : Event.netGet u ∈ (download env fs name cached).2.2) :
    ∃ entry base, lookup env.entries name = some entry ∧
      base_url env = Except.ok base ∧ u = base ++ entry.real_file_name := by
  cases hl : lookup env.entries name with
  | none =>
    unfold download at hm; rw [hl] at hm; simp at hm
  | some entry =>
    refine ⟨entry, ?_⟩
    cases hb : base_url env with
    | error e =>
      rw [download_resolve_err env fs name entry e cached hl hb] at hm
      simp at hm
    | ok base =>
      refine ⟨base, rfl, rfl, ?_⟩
      cases hn : env.net (base ++ entry.real_file_name) with
      | error e =>
        rw [download_net_err env fs name entry base e cached hl hb hn] at hm
        simp at hm
        exact hm
      | ok body =>
        by_cases hh : toLowerHex (env.sha256 body) = entry.hash
        · cases hc : entry.compression with
          | None =>
            rw [download_none_ok env fs name entry base body cached hl hb hn hh hc] at hm
            simp at hm
            exact hm
          | Zstd =>
            cases hz : env.zstdOn with
            | false =>
              rw [download_zstd_required env fs name entry base body cached hl hb hn hh hc hz] at hm
              simp at hm
              exact hm
            | true =>
              cases hd : env.zstdDecode body with
              | none =>
                rw [download_zstd_decode_fail env fs name entry base body cached hl hb hn hh hc hz hd] at hm
                simp at hm
                exact hm
              | some decoded =>
                rw [download_zstd_ok env fs name entry base body decoded cached hl hb hn hh hc hz hd] at hm
                simp at hm
                exact hm
        · rw [download_hash_mismatch env fs name entry base body cached hl hb hn hh] at hm
          simp at hm
          exact hm

/-! ### Lowercase-hex rendering -/

lemma hexDigit_mem_hexChars : ∀ k, k < 16 → hexDigit k ∈ ("0123456789abcdef").data := by
  decide

lemma toLowerHex_data_cons (b : Nat) (ds : List Nat) :
    (toLowerHex (b :: ds)).data =
      hexDigit (b / 16 % 16) :: hexDigit (b % 16) :: (toLowerHex ds).data := rfl

lemma toLowerHex_chars (ds : List Nat) :
    ∀ c ∈ (toLowerHex ds).data, c ∈ ("0123456789abcdef").data := by
  induction ds with
  | nil => intro c hc; simp [toLowerHex] at hc
  | cons b ds ih =>
    intro c hc
    rw [toLowerHex_data_cons] at hc
    rcases List.mem_cons.mp hc with rfl | hc2
    · exact hexDigit_mem_hexChars _ (Nat.mod_lt _ (by norm_num))
    · rcases List.mem_cons.mp hc2 with rfl | hc3
      · exact hexDigit_mem_hexChars _ (Nat.mod_lt _ (by norm_num))
      · exact ih c hc3

/-! ### Concrete fixtures used by witnesses and counterexamples -/

/-- The empty filesystem. -/
def fs0 : FState := { files := fun _ => none, tmpCounter := 0 }

/-- An uncompressed registry entry (the `pydicom/liver.dcm` scenario;
the expected hash is whatever the fixture hasher returns for the fixture
body, here the hash of `[7, 8]` under `fun _ => []`, namely `""`). -/
def entryW : TestFile := ⟨"pydicom/liver.dcm", Compression.None, ""⟩

/-- A Zstd-compressed registry entry (the `WG04/REF/NM1_UNC` scenario). -/
def entryZ : TestFile := ⟨"WG04/REF/NM1_UNC", Compression.Zstd, ""⟩

/-- Fixture: one uncompressed entry, offline-free network returning `[7, 8]`. -/
def envW : Env :=
  { entries := [entryW],
    vars := fun _ => none,
    net := fun _ => Except.ok [7, 8],
    zstdOn := true,
    targetDir := ["target"],
    zstdDecode := fun _ => some [9],
    sha256 := fun _ => [] }

/-- Fixture: one Zstd entry, network returns the wire bytes `[1]`,
which decode to `[2, 3]`. -/
def envZ : Env :=
  { entries := [entryZ],
    vars := fun _ => none,
    net := fun _ => Except.ok [1],
    zstdOn := true,
    targetDir := ["target"],
    zstdDecode := fun _ => some [2, 3],
    sha256 := fun _ => [] }

/-- `envZ` in a build without the `zstd` feature. -/
def envZoff : Env := { envZ with zstdOn := false }

/-- `envW` with a hasher whose digest of the downloaded body renders as
`"0708"`, which differs from the registry hash `""`. -/
def envMismatch : Env := { envW with sha256 := fun b => b }

/-- Fixture with an empty registry and a failing network. -/
def envNoEntries : Env :=
  { entries := [],
    vars := fun _ => none,
    net := fun _ => Except.error "offline",
    zstdOn := false,
    targetDir := ["target"],
    zstdDecode := fun _ => none,
    sha256 := fun _ => [] }

/-- CI pull-request-shaped environment in which `GITHUB_EVENT_NAME` is absent. -/
def envC8 : Env :=
  { envNoEntries with
    vars := fun n =>
      if n = "CI" then some "true"
      else if n = "GITHUB_REPOSITORY" then some "robyoung/dicom-test-files"
      else none }

/-- Environment whose `DICOM_TEST_FILES_URL` is set to the empty string. -/
def envEmptyUrl : Env :=
  { envNoEntries with
    vars := fun n => if n = "DICOM_TEST_FILES_URL" then some "" else none }

/-- The cache path of the fixture entries. -/
def cachedW : FPath := ["target", "dicom_test_files", "pydicom", "liver.dcm"]

/-- The cache path of the Zstd fixture entry. -/
def cachedZ : FPath := ["target", "dicom_test_files", "WG04", "REF", "NM1_UNC"]

/-- A filesystem in which the uncompressed fixture file is already cached. -/
def fsPre : FState := fs0.set cachedW [7, 8]

/-! ### Claims -/

/-- C3: for every name absent from the registry, `path(name)` fails with
`NotFound`, leaves the filesystem untouched, and the call performs no
events at all — in particular no network request — because the registry
lookup is the first step. -/
theorem C3_unknown_name_notFound (env : Env) (fs : FState) (name : String)
    (hl : lookup env.entries name = none) :
    path env fs name = (Except.error Error.NotFound, fs, []) ∧
    ∀ u, Event.netGet u ∉ (path env fs name).2.2 := by
  refine ⟨path_notFound env fs name hl, ?_⟩
  intro u
  rw [path_notFound env fs name hl]
  simp

/-- Witness for C3 at a concrete unregistered name. -/
theorem C3_witness :
    path envNoEntries fs0 "pydicom/liver.dcm" =
      (Except.error Error.NotFound, fs0, []) ∧
    ∀ u, Event.netGet u ∉ (path envNoEntries fs0 "pydicom/liver.dcm").2.2 :=
  C3_unknown_name_notFound envNoEntries fs0 "pydicom/liver.dcm" (by decide)

/-- C4: (1) for a registered name whose file already exists at the resolved
cache path, `path` returns that path immediately, with no filesystem change
and no events (no download, no re-verification); hence (2) whenever a call
to `path` succeeds, an immediately following call returns the same path,
performs no events — in particular no network I/O — and changes nothing. -/
theorem C4_cache_hit_idempotent :
    (∀ (env : Env) (fs : FState) (name : String) (entry : TestFile),
       lookup env.entries name = some entry →
       fs.existsF (cachedPathOf env entry) = true →
       path env fs name = (Except.ok (cachedPathOf env entry), fs, [])) ∧
    (∀ (env : Env) (fs : FState) (name : String) (p : FPath) (fs1 : FState) (tr : List Event),
       path env fs name = (Except.ok p, fs1, tr) →
       path env fs1 name = (Except.ok p, fs1, []) ∧
       ∀ u, Event.netGet u ∉ (path env fs1 name).2.2) := by
  constructor
  · intro env fs name entry hl hhit
    exact path_hit env fs name entry hl hhit
  · intro env fs name p fs1 tr h
    obtain ⟨entry, hl, hp, hex⟩ := path_ok_inv env fs name p fs1 tr h
    have hsecond := path_hit env fs1 name entry hl hex
    rw [hp]
    refine ⟨hsecond, ?_⟩
    intro u
    rw [hsecond]
    simp

/-- Witness for C4: with `pydicom/liver.dcm` already cached, a successful
call is followed by a second call returning the same path with no events. -/
theorem C4_witness :
    path envW fsPre "pydicom/liver.dcm" =
      (Except.ok cachedW, fsPre, []) ∧
    ∀ u, Event.netGet u ∉ (path envW fsPre "pydicom/liver.dcm").2.2 :=
  C4_cache_hit_idempotent.2 envW fsPre "pydicom/liver.dcm" cachedW fsPre []
    (C4_cache_hit_idempotent.1 envW fsPre "pydicom/liver.dcm" entryW (by decide) (by decide))

/-- C2: when the downloaded bytes hash differently from the registry entry,
`path` fails with `InvalidHash`, the temporary file is deleted (it appears as
a `removeFile` event, last in the trace, i.e. before the error is returned),
the final filesystem differs from the initial one at most at the temporary
file's path (where it holds nothing), and no file is at the final cache path. -/
theorem C2_invalid_hash_cleanup (env : Env) (fs : FState) (name : String)
    (entry : TestFile) (base : String) (body : Bytes)
    (hl : lookup env.entries name = some entry)
    (hmiss : fs.existsF (cachedPathOf env entry) = false)
    (hb : base_url env = Except.ok base)
    (hn : env.net (base ++ entry.real_file_name) = Except.ok body)
    (hh : ¬ toLowerHex (env.sha256 body) = entry.hash) :
    (path env fs name).1 = Except.error Error.InvalidHash ∧
    (∀ q : FPath, (path env fs name).2.1.get q =
        if q = tmpFileOf (cachedPathOf env entry) fs.tmpCounter then none else fs.get q) ∧
    (path env fs name).2.1.get (cachedPathOf env entry) = none ∧
    (path env fs name).2.2 =
      [Event.createDirAll (cachedPathOf env entry).dropLast,
       Event.netGet (base ++ entry.real_file_name),
       Event.tempdirIn (cachedPathOf env entry).dropLast
         (tmpDirOf (cachedPathOf env entry) fs.tmpCounter),
       Event.createFile (tmpFileOf (cachedPathOf env entry) fs.tmpCounter),
       Event.writeAll (tmpFileOf (cachedPathOf env entry) fs.tmpCounter) body,
       Event.removeFile (tmpFileOf (cachedPathOf env entry) fs.tmpCounter)] := by
  have hdl := download_hash_mismatch env fs name entry base body
    (cachedPathOf env entry) hl hb hn hh
  rw [path_miss_eq env fs name entry hl hmiss, hdl]
  have hget : ∀ q : FPath,
      (((({ fs with tmpCounter := fs.tmpCounter + 1 } : FState).set
          (tmpFileOf (cachedPathOf env entry) fs.tmpCounter) []).set
          (tmpFileOf (cachedPathOf env entry) fs.tmpCounter) body).removeF
          (tmpFileOf (cachedPathOf env entry) fs.tmpCounter)).get q =
        if q = tmpFileOf (cachedPathOf env entry) fs.tmpCounter then none else fs.get q := by
    intro q
    by_cases hq : q = tmpFileOf (cachedPathOf env entry) fs.tmpCounter
    · rw [FState.get_removeF, if_pos hq, if_pos hq]
    · rw [FState.get_removeF, if_neg hq, FState.get_set, if_neg hq,
          FState.get_set, if_neg hq, if_neg hq]
      rfl
  refine ⟨rfl, hget, ?_, rfl⟩
  rw [hget (cachedPathOf env entry),
      if_neg (fun hc => tmpFileOf_ne (cachedPathOf_ne_nil env entry) fs.tmpCounter hc.symm)]
  exact FState.get_eq_none_of_existsF_false fs _ hmiss

/-- Witness for C2: concrete run whose wire bytes render as `"0708"` against
expected hash `""`. -/
theorem C2_witness :
    (path envMismatch fs0 "pydicom/liver.dcm").1 = Except.error Error.InvalidHash ∧
    (∀ q : FPath, (path envMismatch fs0 "pydicom/liver.dcm").2.1.get q =
        if q = tmpFileOf (cachedPathOf envMismatch entryW) fs0.tmpCounter then none
        else fs0.get q) ∧
    (path envMismatch fs0 "pydicom/liver.dcm").2.1.get (cachedPathOf envMismatch entryW) = none ∧
    (path envMismatch fs0 "pydicom/liver.dcm").2.2 =
      [Event.createDirAll (cachedPathOf envMismatch entryW).dropLast,
       Event.netGet (DEFAULT_GITHUB_BASE_URL ++ entryW.real_file_name),
       Event.tempdirIn (cachedPathOf envMismatch entryW).dropLast
         (tmpDirOf (cachedPathOf envMismatch entryW) fs0.tmpCounter),
       Event.createFile (tmpFileOf (cachedPathOf envMismatch entryW) fs0.tmpCounter),
       Event.writeAll (tmpFileOf (cachedPathOf envMismatch entryW) fs0.tmpCounter) [7, 8],
       Event.removeFile (tmpFileOf (cachedPathOf envMismatch entryW) fs0.tmpCounter)] :=
  C2_invalid_hash_cleanup envMismatch fs0 "pydicom/liver.dcm" entryW
    DEFAULT_GITHUB_BASE_URL [7, 8]
    (by decide) (by decide) (by decide) (by decide) (by decide)

/-- C7: fetching a registered Zstd entry in a build without decompression
support fails with `ZstdRequired`, no decompression is attempted (no decode
event appears in the trace) and nothing lands at the final cache path. -/
theorem C7_zstd_required (env : Env) (fs : FState) (name : String)
    (entry : TestFile) (base : String) (body : Bytes)
    (hl : lookup env.entries name = some entry)
    (hmiss : fs.existsF (cachedPathOf env entry) = false)
    (hb : base_url env = Except.ok base)
    (hn : env.net (base ++ entry.real_file_name) = Except.ok body)
    (hh : toLowerHex (env.sha256 body) = entry.hash)
    (hc : entry.compression = Compression.Zstd)
    (hz : env.zstdOn = false) :
    (path env fs name).1 = Except.error Error.ZstdRequired ∧
    (∀ src dst, Event.zstdDecodeEv src dst ∉ (path env fs name).2.2) ∧
    (path env fs name).2.1.get (cachedPathOf env entry) = none := by
  have hdl := download_zstd_required env fs name entry base body
    (cachedPathOf env entry) hl hb hn hh hc hz
  rw [path_miss_eq env fs name entry hl hmiss, hdl]
  have hne : cachedPathOf env entry ≠ tmpFileOf (cachedPathOf env entry) fs.tmpCounter :=
    fun hc2 => tmpFileOf_ne (cachedPathOf_ne_nil env entry) fs.tmpCounter hc2.symm
  refine ⟨rfl, ?_, ?_⟩
  · intro src dst
    simp
  · have hnone := FState.get_eq_none_of_existsF_false fs _ hmiss
    simp only [FState.get_set, if_neg hne]
    simpa [FState.get] using hnone

/-- Witness for C7 at the Zstd fixture with the feature disabled. -/
theorem C7_witness :
    (path envZoff fs0 "WG04/REF/NM1_UNC").1 = Except.error Error.ZstdRequired ∧
    (∀ src dst, Event.zstdDecodeEv src dst ∉ (path envZoff fs0 "WG04/REF/NM1_UNC").2.2) ∧
    (path envZoff fs0 "WG04/REF/NM1_UNC").2.1.get (cachedPathOf envZoff entryZ) = none :=
  C7_zstd_required envZoff fs0 "WG04/REF/NM1_UNC" entryZ DEFAULT_GITHUB_BASE_URL [1]
    (by decide) (by decide) (by decide) (by decide) (by decide) (by decide) (by decide)

/-- C1 (amended): for `Compression::None` entries the final cache path is
never written directly — every event that creates or writes file contents
targets some other path, and the file appears at the canonical path only
through the single `rename` of the fully-written, verified temp file. For
`Compression::Zstd` entries, however, the decompressed replacement is
created and streamed *directly* at the canonical path (`File::create` +
`io::copy`), and no rename into the canonical path occurs. -/
theorem C1_publish_amended :
    (∀ (env : Env) (fs : FState) (name : String) (entry : TestFile)
       (base : String) (body : Bytes),
      lookup env.entries name = some entry →
      fs.existsF (cachedPathOf env entry) = false →
      base_url env = Except.ok base →
      env.net (base ++ entry.real_file_name) = Except.ok body →
      toLowerHex (env.sha256 body) = entry.hash →
      entry.compression = Compression.None →
        (∀ e ∈ (path env fs name).2.2, e.writesTo (cachedPathOf env entry) = false) ∧
        Event.rename (tmpFileOf (cachedPathOf env entry) fs.tmpCounter)
          (cachedPathOf env entry) ∈ (path env fs name).2.2 ∧
        (path env fs name).2.1.get (cachedPathOf env entry) = some body) ∧
    (∀ (env : Env) (fs : FState) (name : String) (entry : TestFile)
       (base : String) (body decoded : Bytes),
      lookup env.entries name = some entry →
      fs.existsF (cachedPathOf env entry) = false →
      base_url env = Except.ok base →
      env.net (base ++ entry.real_file_name) = Except.ok body →
      toLowerHex (env.sha256 body) = entry.hash →
      entry.compression = Compression.Zstd →
      env.zstdOn = true →
      env.zstdDecode body = some decoded →
        Event.createFile (cachedPathOf env entry) ∈ (path env fs name).2.2 ∧
        (∀ src, Event.rename src (cachedPathOf env entry) ∉ (path env fs name).2.2) ∧
        (path env fs name).2.1.get (cachedPathOf env entry) = some decoded) := by
  constructor
  · intro env fs name entry base body hl hmiss hb hn hh hc
    have hdl := download_none_ok env fs name entry base body
      (cachedPathOf env entry) hl hb hn hh hc
    have hne : tmpFileOf (cachedPathOf env entry) fs.tmpCounter ≠ cachedPathOf env entry :=
      tmpFileOf_ne (cachedPathOf_ne_nil env entry) fs.tmpCounter
    rw [path_miss_eq env fs name entry hl hmiss, hdl]
    refine ⟨?_, ?_, ?_⟩
    · intro e he
      simp at he
      rcases he with rfl | rfl | rfl | rfl | rfl | rfl <;>
        simp [Event.writesTo, hne]
    · simp
    · rw [FState.get_set, if_pos rfl]
  · intro env fs name entry base body decoded hl hmiss hb hn hh hc hz hd
    have hdl := download_zstd_ok env fs name entry base body decoded
      (cachedPathOf env entry) hl hb hn hh hc hz hd
    have hne : cachedPathOf env entry ≠ tmpFileOf (cachedPathOf env entry) fs.tmpCounter :=
      fun hc2 => tmpFileOf_ne (cachedPathOf_ne_nil env entry) fs.tmpCounter hc2.symm
    rw [path_miss_eq env fs name entry hl hmiss, hdl]
    refine ⟨?_, ?_, ?_⟩
    · simp
    · intro src
      simp
    · rw [FState.get_removeF, if_neg hne, FState.get_set, if_pos rfl]

/-- Counterexample to C1 as stated: a successful Zstd fetch populates the
cache, yet its trace contains a direct `createFile` of the canonical path,
so it is false that the canonical path is written only through a rename. -/
theorem C1_claim_false :
    (path envZ fs0 "WG04/REF/NM1_UNC").1 = Except.ok cachedZ ∧
    (path envZ fs0 "WG04/REF/NM1_UNC").2.1.get cachedZ = some [2, 3] ∧
    ¬ (∀ e ∈ (path envZ fs0 "WG04/REF/NM1_UNC").2.2, e.writesTo cachedZ = false) := by
  decide

/-- Witness for C1 (amended), instantiating the `Compression::None` part at
the `pydicom/liver.dcm` fixture. -/
theorem C1_witness :
    (∀ e ∈ (path envW fs0 "pydicom/liver.dcm").2.2,
       e.writesTo (cachedPathOf envW entryW) = false) ∧
    Event.rename (tmpFileOf (cachedPathOf envW entryW) fs0.tmpCounter)
      (cachedPathOf envW entryW) ∈ (path envW fs0 "pydicom/liver.dcm").2.2 ∧
    (path envW fs0 "pydicom/liver.dcm").2.1.get (cachedPathOf envW entryW) = some [7, 8] :=
  C1_publish_amended.1 envW fs0 "pydicom/liver.dcm" entryW DEFAULT_GITHUB_BASE_URL [7, 8]
    (by decide) (by decide) (by decide) (by decide) (by decide) (by decide)

/-- C5: the verifier (1) accepts exactly when the digest of the file's full
contents, rendered in hex, equals the registry hash (deleting the file and
failing with `InvalidHash` otherwise); (2) that rendering uses only lowercase
hexadecimal characters; (3) for a compressed entry the run succeeds when the
*wire* bytes' digest matches — the cache then holds the decompressed bytes,
which were never hashed; and (4) a compressed download whose decompressed
output would match the registry hash still fails with `InvalidHash` when the
wire bytes do not match: verification precedes and ignores decompression. -/
theorem C5_verifier :
    (∀ (env : Env) (fs : FState) (p : FPath) (entry : TestFile) (c : Bytes),
       fs.get p = some c →
         (toLowerHex (env.sha256 c) = entry.hash →
            check_hash env fs p entry = (Except.ok (), fs, [])) ∧
         (¬ toLowerHex (env.sha256 c) = entry.hash →
            check_hash env fs p entry =
              (Except.error Error.InvalidHash, fs.removeF p, [Event.removeFile p]))) ∧
    (∀ ds : List Nat, ∀ c ∈ (toLowerHex ds).data, c ∈ ("0123456789abcdef").data) ∧
    (∀ (env : Env) (fs : FState) (name : String) (entry : TestFile)
       (base : String) (body decoded : Bytes),
       lookup env.entries name = some entry →
       fs.existsF (cachedPathOf env entry) = false →
       base_url env = Except.ok base →
       env.net (base ++ entry.real_file_name) = Except.ok body →
       toLowerHex (env.sha256 body) = entry.hash →
       entry.compression = Compression.Zstd →
       env.zstdOn = true →
       env.zstdDecode body = some decoded →
         (path env fs name).1 = Except.ok (cachedPathOf env entry) ∧
         (path env fs name).2.1.get (cachedPathOf env entry) = some decoded) ∧
    (∀ (env : Env) (fs : FState) (name : String) (entry : TestFile)
       (base : String) (body decoded : Bytes),
       lookup env.entries name = some entry →
       fs.existsF (cachedPathOf env entry) = false →
       base_url env = Except.ok base →
       env.net (base ++ entry.real_file_name) = Except.ok body →
       env.zstdDecode body = some decoded →
       toLowerHex (env.sha256 decoded) = entry.hash →
       ¬ toLowerHex (env.sha256 body) = entry.hash →
         (path env fs name).1 = Except.error Error.InvalidHash) := by
  refine ⟨?_, toLowerHex_chars, ?_, ?_⟩
  · intro env fs p entry c hg
    unfold check_hash
    rw [show fs.get p = some c from hg]
    constructor
    · intro hmatch
      simp [hmatch]
    · intro hmm
      simp [hmm]
  · intro env fs name entry base body decoded hl hmiss hb hn hh hc hz hd
    have hdl := download_zstd_ok env fs name entry base body decoded
      (cachedPathOf env entry) hl hb hn hh hc hz hd
    have hne : cachedPathOf env entry ≠ tmpFileOf (cachedPathOf env entry) fs.tmpCounter :=
      fun hc2 => tmpFileOf_ne (cachedPathOf_ne_nil env entry) fs.tmpCounter hc2.symm
    rw [path_miss_eq env fs name entry hl hmiss, hdl]
    exact ⟨rfl, by rw [FState.get_removeF, if_neg hne, FState.get_set, if_pos rfl]⟩
  · intro env fs name entry base body decoded hl hmiss hb hn _hd _hdec hmm
    have hdl := download_hash_mismatch env fs name entry base body
      (cachedPathOf env entry) hl hb hn hmm
    rw [path_miss_eq env fs name entry hl hmiss, hdl]

/-- Witness for C5, instantiating the wire-bytes part (3) at the Zstd
fixture: wire bytes `[1]` hash-match, the cache receives `[2, 3]`. -/
theorem C5_witness :
    (path envZ fs0 "WG04/REF/NM1_UNC").1 = Except.ok (cachedPathOf envZ entryZ) ∧
    (path envZ fs0 "WG04/REF/NM1_UNC").2.1.get (cachedPathOf envZ entryZ) = some [2, 3] :=
  C5_verifier.2.2.1 envZ fs0 "WG04/REF/NM1_UNC" entryZ DEFAULT_GITHUB_BASE_URL [1] [2, 3]
    (by decide) (by decide) (by decide) (by decide) (by decide) (by decide)
    (by decide) (by decide)

/-- C6: the remote file name is the entry's name, with `.zst` appended
exactly for Zstd entries, and every network request any `path` run performs
is for the resolved base URL with that real file name appended. -/
theorem C6_remote_filename :
    (∀ f : TestFile,
       (f.compression = Compression.None → f.real_file_name = f.name) ∧
       (f.compression = Compression.Zstd → f.real_file_name = f.name ++ ".zst")) ∧
    (∀ (env : Env) (fs : FState) (name : String) (u : String),
       Event.netGet u ∈ (path env fs name).2.2 →
       ∃ entry base, lookup env.entries name = some entry ∧
         base_url env = Except.ok base ∧ u = base ++ entry.real_file_name) := by
  constructor
  · intro f
    constructor <;> intro hc <;> simp [TestFile.real_file_name, hc]
  · intro env fs name u hm
    cases hl : lookup env.entries name with
    | none => rw [path_notFound env fs name hl] at hm; simp at hm
    | some entry =>
      cases hex : fs.existsF (cachedPathOf env entry) with
      | true => rw [path_hit env fs name entry hl hex] at hm; simp at hm
      | false =>
        rw [(path_trace_miss env fs name entry hl hex).2] at hm
        rw [← hl]
        exact download_netGet env fs name (cachedPathOf env entry) u hm

/-- Witness for C6 at the Zstd fixture: the one request of the run is for
`<default base>/WG04/REF/NM1_UNC.zst`. -/
theorem C6_witness :
    ∃ entry base, lookup envZ.entries "WG04/REF/NM1_UNC" = some entry ∧
      base_url envZ = Except.ok base ∧
      DEFAULT_GITHUB_BASE_URL ++ "WG04/REF/NM1_UNC.zst" = base ++ entry.real_file_name :=
  C6_remote_filename.2 envZ fs0 "WG04/REF/NM1_UNC"
    (DEFAULT_GITHUB_BASE_URL ++ "WG04/REF/NM1_UNC.zst") (by decide)

lemma derived_url_ne (a b : String) :
    (RAW_GITHUBUSERCONTENT_URL ++ "/" ++ a ++ "/" ++ b ++ "/data/") ≠ "" ∧
    (RAW_GITHUBUSERCONTENT_URL ++ "/" ++ a ++ "/" ++ b ++ "/data/") ≠ "/" := by
  have h1 : RAW_GITHUBUSERCONTENT_URL.length = 33 := rfl
  have h2 : ("/" : String).length = 1 := rfl
  have h3 : ("/data/" : String).length = 6 := rfl
  have h0 : ("" : String).length = 0 := rfl
  constructor <;> intro h <;> have hl := congrArg String.length h <;>
    simp only [String.length_append, h1, h2, h3, h0] at hl <;> omega

lemma base_url_ci_default_ne (env : Env) (u : String)
    (h : base_url_ci_default env = Except.ok u) : u ≠ "" ∧ u ≠ "/" := by
  unfold base_url_ci_default at h
  by_cases hci : (env.vars "CI").getD "" = "true"
  · by_cases hrepo :
        str_ends_with ((env.vars "GITHUB_REPOSITORY").getD "") "/dicom-test-files" = true
    · cases hev : env.vars "GITHUB_EVENT_NAME" with
      | none => simp [hci, hrepo, hev] at h
      | some ev =>
        by_cases hpr : ev = "pull_request"
        · cases href : env.vars "GITHUB_HEAD_REF" with
          | none => simp [hci, hrepo, hev, hpr, href] at h
          | some r =>
            simp [hci, hrepo, hev, hpr, href] at h
            subst h
            exact derived_url_ne _ _
        · simp [hci, hrepo, hev, hpr] at h
          subst h
          decide
    · simp [hci, hrepo] at h
      subst h
      decide
  · simp [hci] at h
    subst h
    decide

/-- C8 (amended): a set, *non-empty* `DICOM_TEST_FILES_URL` is used with a
trailing `/` appended when missing; an unset or empty variable falls through
to the CI logic; there, outside CI (or for a repository not ending in
`/dicom-test-files`, or for a non-`pull_request` event) the default canonical
base URL is returned, while *inside* the CI `dicom-test-files` context a
missing `GITHUB_EVENT_NAME` or (for a pull request) a missing
`GITHUB_HEAD_REF` makes resolution fail with a `VarError` instead of
returning the default; a present head ref yields the branch's
raw-content URL. -/
theorem C8_base_url_amended :
    (∀ (env : Env) (u : String), env.vars "DICOM_TEST_FILES_URL" = some u → u ≠ "" →
       base_url env = Except.ok (if !(str_ends_with u "/") then u ++ "/" else u)) ∧
    (∀ env : Env,
       (env.vars "DICOM_TEST_FILES_URL" = none ∨
        env.vars "DICOM_TEST_FILES_URL" = some "") →
       base_url env = base_url_ci_default env) ∧
    (∀ env : Env, ¬ (env.vars "CI").getD "" = "true" →
       base_url_ci_default env = Except.ok DEFAULT_GITHUB_BASE_URL) ∧
    (∀ env : Env, (env.vars "CI").getD "" = "true" →
       str_ends_with ((env.vars "GITHUB_REPOSITORY").getD "") "/dicom-test-files" = false →
       base_url_ci_default env = Except.ok DEFAULT_GITHUB_BASE_URL) ∧
    (∀ env : Env, (env.vars "CI").getD "" = "true" →
       str_ends_with ((env.vars "GITHUB_REPOSITORY").getD "") "/dicom-test-files" = true →
       env.vars "GITHUB_EVENT_NAME" = none →
       base_url_ci_default env = Except.error VarError.NotPresent) ∧
    (∀ (env : Env) (ev : String), (env.vars "CI").getD "" = "true" →
       str_ends_with ((env.vars "GITHUB_REPOSITORY").getD "") "/dicom-test-files" = true →
       env.vars "GITHUB_EVENT_NAME" = some ev → ¬ ev = "pull_request" →
       base_url_ci_default env = Except.ok DEFAULT_GITHUB_BASE_URL) ∧
    (∀ env : Env, (env.vars "CI").getD "" = "true" →
       str_ends_with ((env.vars "GITHUB_REPOSITORY").getD "") "/dicom-test-files" = true →
       env.vars "GITHUB_EVENT_NAME" = some "pull_request" →
       env.vars "GITHUB_HEAD_REF" = none →
       base_url_ci_default env = Except.error VarError.NotPresent) ∧
    (∀ (env : Env) (r : String), (env.vars "CI").getD "" = "true" →
       str_ends_with ((env.vars "GITHUB_REPOSITORY").getD "") "/dicom-test-files" = true →
       env.vars "GITHUB_EVENT_NAME" = some "pull_request" →
       env.vars "GITHUB_HEAD_REF" = some r →
       base_url_ci_default env =
         Except.ok (RAW_GITHUBUSERCONTENT_URL ++ "/"
           ++ ((env.vars "GITHUB_REPOSITORY").getD "") ++ "/" ++ r ++ "/data/")) := by
  refine ⟨?_, ?_, ?_, ?_, ?_, ?_, ?_, ?_⟩
  · intro env u hset hne
    unfold base_url
    rw [hset]
    simp [hne]
  · intro env hft
    rcases hft with hft | hft <;> unfold base_url <;> rw [hft] <;> simp
  · intro env hci
    unfold base_url_ci_default
    simp [hci]
  · intro env hci hrepo
    unfold base_url_ci_default
    simp [hci, hrepo]
  · intro env hci hrepo hev
    unfold base_url_ci_default
    simp [hci, hrepo, hev]
  · intro env ev hci hrepo hev hne
    unfold base_url_ci_default
    simp [hci, hrepo, hev, hne]
  · intro env hci hrepo hev href
    unfold base_url_ci_default
    simp [hci, hrepo, hev, href]
  · intro env r hci hrepo hev href
    unfold base_url_ci_default
    simp [hci, hrepo, hev, href]

/-- Counterexample to C8 as stated: with `CI=true`, the project repository,
no `DICOM_TEST_FILES_URL` and no `GITHUB_EVENT_NAME`, `base_url` does not
return the default canonical base URL (nor any URL): it fails with a
`VarError`. -/
theorem C8_claim_false :
    base_url envC8 = Except.error VarError.NotPresent ∧
    ∀ u, ¬ base_url envC8 = Except.ok u := by
  have h : base_url envC8 = Except.error VarError.NotPresent := by decide
  exact ⟨h, fun u hu => Except.noConfusion (h ▸ hu)⟩

/-- Witness for C8 (amended): the missing-event-name conjunct at the
concrete CI environment. -/
theorem C8_witness :
    base_url_ci_default envC8 = Except.error VarError.NotPresent :=
  C8_base_url_amended.2.2.2.2.1 envC8 (by decide) (by decide) (by decide)

/-- C9 (amended): whenever `path` has actually downloaded (registered name,
cache miss, resolvable base URL, successful network read) and the call
returns success or `InvalidHash`, the temporary download file is gone at
return time — renamed into place or deleted. (On the other post-download
failures — `ZstdRequired`, decode failure — the source leaks it:
see the counterexample.) -/
theorem C9_temp_file_amended (env : Env) (fs : FState) (name : String)
    (entry : TestFile) (base : String) (body : Bytes)
    (hl : lookup env.entries name = some entry)
    (hmiss : fs.existsF (cachedPathOf env entry) = false)
    (hb : base_url env = Except.ok base)
    (hn : env.net (base ++ entry.real_file_name) = Except.ok body)
    (hout : (path env fs name).1 = Except.ok (cachedPathOf env entry) ∨
            (path env fs name).1 = Except.error Error.InvalidHash) :
    (path env fs name).2.1.get (tmpFileOf (cachedPathOf env entry) fs.tmpCounter) = none := by
  have hne : tmpFileOf (cachedPathOf env entry) fs.tmpCounter ≠ cachedPathOf env entry :=
    tmpFileOf_ne (cachedPathOf_ne_nil env entry) fs.tmpCounter
  by_cases hh : toLowerHex (env.sha256 body) = entry.hash
  · cases hc : entry.compression with
    | None =>
      have hdl := download_none_ok env fs name entry base body
        (cachedPathOf env entry) hl hb hn hh hc
      rw [path_miss_eq env fs name entry hl hmiss, hdl]
      rw [FState.get_set, if_neg hne, FState.get_removeF, if_pos rfl]
    | Zstd =>
      cases hz : env.zstdOn with
      | true =>
        cases hd : env.zstdDecode body with
        | some decoded =>
          have hdl := download_zstd_ok env fs name entry base body decoded
            (cachedPathOf env entry) hl hb hn hh hc hz hd
          rw [path_miss_eq env fs name entry hl hmiss, hdl]
          rw [FState.get_removeF, if_pos rfl]
        | none =>
          have hdl := download_zstd_decode_fail env fs name entry base body
            (cachedPathOf env entry) hl hb hn hh hc hz hd
          rw [path_miss_eq env fs name entry hl hmiss, hdl] at hout
          rcases hout with h | h <;> simp at h
      | false =>
        have hdl := download_zstd_required env fs name entry base body
          (cachedPathOf env entry) hl hb hn hh hc hz
        rw [path_miss_eq env fs name entry hl hmiss, hdl] at hout
        rcases hout with h | h <;> simp at h
  · have hdl := download_hash_mismatch env fs name entry base body
      (cachedPathOf env entry) hl hb hn hh
    rw [path_miss_eq env fs name entry hl hmiss, hdl]
    rw [FState.get_removeF, if_pos rfl]

/-- Counterexample to C9 as stated: a Zstd fetch in a build without the
`zstd` feature returns (`ZstdRequired`) with the temporary download file
still on disk — neither renamed into the final cache path (still absent)
nor deleted. -/
theorem C9_claim_false :
    (path envZoff fs0 "WG04/REF/NM1_UNC").1 = Except.error Error.ZstdRequired ∧
    (path envZoff fs0 "WG04/REF/NM1_UNC").2.1.get
      (tmpFileOf cachedZ fs0.tmpCounter) = some [1] ∧
    (path envZoff fs0 "WG04/REF/NM1_UNC").2.1.get cachedZ = none := by
  decide

/-- Witness for C9 (amended) at the hash-mismatch fixture. -/
theorem C9_witness :
    (path envMismatch fs0 "pydicom/liver.dcm").2.1.get
      (tmpFileOf (cachedPathOf envMismatch entryW) fs0.tmpCounter) = none :=
  C9_temp_file_amended envMismatch fs0 "pydicom/liver.dcm" entryW
    DEFAULT_GITHUB_BASE_URL [7, 8]
    (by decide) (by decide) (by decide) (by decide) (Or.inr (by decide))

/-- C10: an empty `DICOM_TEST_FILES_URL` behaves exactly like an unset one —
`base_url` falls through to the CI-derivation/default logic (any environment
agreeing elsewhere but with the variable removed yields the same result),
and in particular never returns an empty or `"/"`-only base URL. -/
theorem C10_empty_url_ignored (env env2 : Env)
    (he : env.vars "DICOM_TEST_FILES_URL" = some "")
    (he2 : env2.vars "DICOM_TEST_FILES_URL" = none)
    (hsame : ∀ n, ¬ n = "DICOM_TEST_FILES_URL" → env2.vars n = env.vars n) :
    base_url env = base_url env2 ∧
    base_url env = base_url_ci_default env ∧
    (∀ u, base_url env = Except.ok u → u ≠ "" ∧ u ≠ "/") := by
  have hstep : base_url env = base_url_ci_default env := by
    unfold base_url
    rw [he]
    simp
  have hstep2 : base_url env2 = base_url_ci_default env2 := by
    unfold base_url
    rw [he2]
  have hciEq : base_url_ci_default env = base_url_ci_default env2 := by
    unfold base_url_ci_default
    rw [hsame "CI" (by decide), hsame "GITHUB_REPOSITORY" (by decide),
        hsame "GITHUB_EVENT_NAME" (by decide), hsame "GITHUB_HEAD_REF" (by decide)]
  refine ⟨by rw [hstep, hstep2, hciEq], hstep, ?_⟩
  intro u hu
  exact base_url_ci_default_ne env u (by rw [← hstep]; exact hu)

/-- Witness for C10 at concrete environments differing only in whether
`DICOM_TEST_FILES_URL` is set (to `""`) or unset. -/
theorem C10_witness :
    base_url envEmptyUrl = base_url envNoEntries ∧
    base_url envEmptyUrl = base_url_ci_default envEmptyUrl ∧
    (∀ u, base_url envEmptyUrl = Except.ok u → u ≠ "" ∧ u ≠ "/") :=
  C10_empty_url_ignored envEmptyUrl envNoEntries (by decide) (by decide)
    (fun n hn => by
      simp only [envEmptyUrl, envNoEntries]
      rw [if_neg hn])

end DicomTestFiles
